import Mathlib

/-!
Shallow embedding of src/agent.py, a documentation query agent:
fetch a web page, extract text from p/h1/h2/h3 tags, index the text in a
whoosh full-text index stored under the directory named index, and answer
user queries from the top-ranked retrieved chunk via an extractive QA model.

Strings are modelled as lists of characters (Str), so that the Python
string operations used by the script (strip, split, lower, join) are
plain recursive functions that the kernel can evaluate.

External library behaviour reached by the script is modelled at the
granularity the script observes:
  - requests.get plus raise_for_status: an HTTP outcome is either a network
    failure carrying a cause, or a final response with a status code and a
    parsed body; raise_for_status raises exactly for status codes in
    [400, 600).
  - BeautifulSoup: a parsed body is the list of its tags in document order,
    each tag carrying its name and its extracted text; find_all filters by
    name, get_text returns the text.
  - whoosh: the on-disk index is None when the directory does not exist
    (open_dir then raises) and otherwise the list of stored chunk contents
    in insertion order; the default analyzer tokenizes on alphanumeric or
    underscore runs, lowercases, and drops stopwords and one-character
    tokens; the default parser combines query terms with AND; a hit is an
    entry containing every query term, and the top-ranked hit is modelled
    as the first matching entry in insertion order (the theorems below
    depend on ranking only when every hit has the same content).
  - transformers pipeline: an opaque function from question and context to
    an answer or a raised error.
-/

/-- Strings of the embedded program: lists of characters. -/
abbrev Str := List Char

instance {ε α} [DecidableEq ε] [DecidableEq α] : DecidableEq (Except ε α) := fun a b =>
  match a, b with
  | .ok x, .ok y => if h : x = y then .isTrue (by rw [h]) else .isFalse (by simp [h])
  | .error x, .error y => if h : x = y then .isTrue (by rw [h]) else .isFalse (by simp [h])
  | .ok _, .error _ => .isFalse (by simp)
  | .error _, .ok _ => .isFalse (by simp)

/-- Python whitespace characters stripped by str.strip with no argument
(ASCII subset: space, tab, newline, carriage return, vertical tab, form feed). -/
def isPySpace (c : Char) : Bool :=
  c = ' ' || c = '\t' || c = '\n' || c = '\r' || c = '\x0b' || c = '\x0c'

/-- Left part of Python str.strip: drop leading whitespace. -/
def stripL (s : Str) : Str := s.dropWhile isPySpace

/-- Right part of Python str.strip: drop trailing whitespace. -/
def stripR (s : Str) : Str := (s.reverse.dropWhile isPySpace).reverse

/-- Python str.strip with no argument. -/
def strip (s : Str) : Str := stripR (stripL s)

/-- Python str.lower restricted to the ASCII letters that appear here. -/
def lowerS (s : Str) : Str := s.map Char.toLower

/-- Python sep.join for a newline separator, as used at agent.py line 32. -/
def joinNL : List Str → Str
  | [] => []
  | [t] => t
  | t :: ts => t ++ '\n' :: joinNL ts

/-- First occurrence of the separator sep in s, returned as the part before
it and the part after it; none when sep does not occur. -/
def findSep (sep : Str) : Str → Option (Str × Str)
  | [] => none
  | c :: rest =>
    if sep.isPrefixOf (c :: rest) then some ([], (c :: rest).drop sep.length)
    else
      match findSep sep rest with
      | none => none
      | some (pre, post) => some (c :: pre, post)

/-- Fuelled worker for Python str.split with an explicit separator:
leftmost non-overlapping occurrences, empty pieces kept. The fuel is an
upper bound on the number of pieces; splitSeq supplies enough. -/
def splitSeqAux (sep : Str) : Nat → Str → List Str
  | 0, s => [s]
  | fuel + 1, s =>
    match findSep sep s with
    | none => [s]
    | some (pre, post) => pre :: splitSeqAux sep fuel post

/-- Python str.split with an explicit non-empty separator. -/
def splitSeq (sep s : Str) : List Str := splitSeqAux sep (s.length + 1) s

/-- The two-newline separator of agent.py line 49. -/
def nlnl : Str := ['\n', '\n']

/-- A character counted by the regular expression token class of the
default whoosh tokenizer: alphanumeric or underscore. -/
def isWordChar (c : Char) : Bool := c.isAlphanum || c = '_'

/-- Default whoosh stopword list (whoosh.analysis.STOP_WORDS). -/
def stopWords : List Str :=
  ["a", "an", "and", "are", "as", "at", "be", "by", "can", "for", "from",
   "have", "if", "in", "is", "it", "may", "not", "of", "on", "or", "tbd",
   "that", "the", "this", "to", "us", "we", "when", "will", "with", "yet",
   "you", "your"].map String.toList

/-- Default whoosh analyzer applied to the single TEXT field of the schema
at agent.py line 12: split into maximal word-character runs, lowercase,
drop stopwords and tokens shorter than two characters. -/
def tokens (s : Str) : List Str :=
  ((lowerS s).splitOnP (fun c => !isWordChar c)).filter
    (fun t => decide (2 ≤ t.length) && !stopWords.contains t)

/-- A document matches a parsed query when the query has at least one term
after analysis and every term occurs among the document tokens (the default
whoosh QueryParser groups terms with AND; a query with no surviving terms
matches nothing). -/
def matchesQuery (q doc : Str) : Bool :=
  !(tokens q).isEmpty && (tokens q).all (fun t => (tokens doc).contains t)

/-- An HTML tag as the script observes it through BeautifulSoup: its name
and its extracted text. -/
structure Tag where
  name : Str
  text : Str
deriving DecidableEq

/-- Outcome of requests.get at agent.py line 26: a network failure carrying
the exception text, or a final response with its status code and parsed body. -/
inductive HttpOutcome where
  | failure (cause : Str)
  | response (status : Nat) (body : List Tag)

/-- Tag filter of agent.py line 32: find_all of p, h1, h2 and h3. -/
def keepTag (t : Tag) : Bool :=
  t.name = ['p'] || t.name = ['h', '1'] || t.name = ['h', '2'] || t.name = ['h', '3']

/-- Message prefix of the exception raised at agent.py line 29. -/
def fetchErrPrefix : Str := "[ERROR] Failed to fetch URL: ".toList

/-- Model of the requests.HTTPError text raised by raise_for_status,
carrying the status code. -/
def httpErrCause (status : Nat) : Str :=
  "HTTPError status ".toList ++ Nat.toDigits 10 status

/-- Model of scrape_documentation (agent.py lines 23-35): raise on network
failure or on a 4xx or 5xx status, otherwise join the text of the kept tags
with single newlines and strip the result. -/
def scrape_documentation (o : HttpOutcome) : Except Str Str :=
  match o with
  | .failure cause => .error (fetchErrPrefix ++ cause)
  | .response status body =>
    if 400 ≤ status ∧ status < 600 then
      .error (fetchErrPrefix ++ httpErrCause status)
    else
      .ok (strip (joinNL ((body.filter keepTag).map Tag.text)))

/-- On-disk index state: none when the directory named index does not
exist, otherwise the stored content of every committed entry, in insertion
order. -/
abbrev IndexState := Option (List Str)

/-- The chunks committed by one call of index_content: the blank-line
split of the content, each chunk stripped (agent.py lines 49-51). -/
def indexChunks (content : Str) : List Str := (splitSeq nlnl content).map strip

/-- Model of index_content (agent.py lines 40-53): create the index when
the directory is absent, otherwise open it, then split the content on
blank-line boundaries and append each stripped chunk as a new entry. -/
def index_content (content : Str) (st : IndexState) : IndexState :=
  let entries := match st with | none => [] | some es => es
  some (entries ++ indexChunks content)

/-- Message of the exception raised by whoosh open_dir when the index
directory does not exist (agent.py line 58, uncaught). -/
def openDirErrMsg : Str := "open_dir failed: index directory does not exist".toList

/-- Entries matching the parsed query, in insertion order. -/
def searchHits (entries : List Str) (q : Str) : List Str :=
  entries.filter (matchesQuery q)

/-- Model of search_content (agent.py lines 56-69): open_dir raises when
the index directory does not exist; otherwise return the stored content of
the top-ranked hit, or none when there are zero hits. -/
def search_content (st : IndexState) (q : Str) : Except Str (Option Str) :=
  match st with
  | none => .error openDirErrMsg
  | some entries =>
    match searchHits entries q with
    | [] => .ok none
    | top :: _ => .ok (some top)

/-- A QA pipeline handle: question and context to answer text, or a raised
error (model of the transformers pipeline object loaded at line 76). -/
abbrev QaPipe := Str → Str → Except Str Str

/-- Message prefix of the exception re-raised at agent.py line 89. -/
def ansErrPrefix : Str := "[ERROR] Failed to answer query: ".toList

/-- Model of answer_query (agent.py lines 83-89): run the pipeline and
re-raise any failure with the answer-error prefix. -/
def answer_query (qa : QaPipe) (query context : Str) : Except Str Str :=
  match qa query context with
  | .ok a => .ok a
  | .error e => .error (ansErrPrefix ++ e)

/-- Message returned by handle_missing_info (agent.py lines 92-93). -/
def handle_missing_info : Str :=
  "[INFO] Sorry, no relevant information was found in the documentation.".toList

/-- Observable outcome of one iteration of the interactive loop
(agent.py lines 111-123). -/
inductive StepResult where
  | exited
  | answered (a : Str)
  | noInfo (msg : Str)
  | fatal (msg : Str)
deriving DecidableEq

/-- The per-query branch of main (agent.py lines 119-123): a non-empty
context string goes to the QA model, anything falsy prints the
missing-information message. -/
def handle_context (qa : QaPipe) (q : Str) (ctx : Option Str) : StepResult :=
  match ctx with
  | some c =>
    if c ≠ [] then
      match answer_query qa q c with
      | .ok a => .answered a
      | .error m => .fatal m
    else .noInfo handle_missing_info
  | none => .noInfo handle_missing_info

/-- One iteration of the interactive loop of main (agent.py lines 111-123):
strip the input line, exit when it lowercases to exit, otherwise search and
either answer or report the missing-information message; any exception
raised while searching or answering escapes to the outer handler as fatal. -/
def loop_step (st : IndexState) (qa : QaPipe) (input : Str) : StepResult :=
  let q := strip input
  if lowerS q = "exit".toList then .exited
  else
    match search_content st q with
    | .error m => .fatal m
    | .ok ctx => handle_context qa q ctx

/-- How a whole session ends. ranOut marks exhaustion of the modelled
input lines. -/
inductive SessionOutcome where
  | exitCmd
  | fatal (msg : Str)
  | ranOut
deriving DecidableEq

/-- The interactive phase of main over a list of input lines: the loop
repeats after an answer or a missing-information report, and ends on the
exit command or on a fatal error (the try block of main wraps the loop, so
an exception raised inside it terminates the session). -/
def run_loop (st : IndexState) (qa : QaPipe) : List Str → SessionOutcome
  | [] => .ranOut
  | q :: rest =>
    match loop_step st qa q with
    | .exited => .exitCmd
    | .fatal m => .fatal m
    | _ => run_loop st qa rest

/-- Message prefix of the RuntimeError raised at agent.py line 80. -/
def loadErrPrefix : Str := "[ERROR] Failed to load model: ".toList

/-- Model of load_qa_model (agent.py lines 72-80): re-raise any pipeline
construction failure with the load-error prefix. -/
def load_qa_model (outcome : Except Str QaPipe) : Except Str QaPipe :=
  match outcome with
  | .ok qa => .ok qa
  | .error e => .error (loadErrPrefix ++ e)

/-- A whole session of main (agent.py lines 96-126) on a fresh working
directory (no index directory yet): setup is fetch, index, load model; any
setup exception is fatal; then the interactive loop runs. -/
def session (fetched : HttpOutcome) (load : Except Str QaPipe)
    (queries : List Str) : SessionOutcome :=
  match scrape_documentation fetched with
  | .error m => .fatal m
  | .ok content =>
    match load_qa_model load with
    | .error m => .fatal m
    | .ok qa => run_loop (index_content content none) qa queries

/-! ### Helper lemmas about the string operations -/

lemma dropWhile_length_le (p : Char → Bool) (l : Str) : (l.dropWhile p).length ≤ l.length := by
  induction l with
  | nil => simp
  | cons a t ih =>
    by_cases h : p a
    · simp only [List.dropWhile_cons, if_pos h, List.length_cons]
      omega
    · simp [List.dropWhile_cons, h]

lemma dropWhile_idem (p : Char → Bool) (l : Str) : (l.dropWhile p).dropWhile p = l.dropWhile p := by
  induction l with
  | nil => simp
  | cons a t ih =>
    by_cases h : p a <;> simp [List.dropWhile_cons, h, ih]

lemma dropWhile_cons_self (p : Char → Bool) (a : Char) (l : Str)
    (h : (a :: l).dropWhile p = a :: l) : p a = false := by
  by_contra hc
  rw [Bool.not_eq_false] at hc
  rw [List.dropWhile_cons, if_pos hc] at h
  have h1 := dropWhile_length_le p l
  have h2 := congrArg List.length h
  simp at h2
  omega

lemma stripL_suffix (s : Str) : stripL s <:+ s := List.dropWhile_suffix _

lemma stripR_front (s : Str) : stripR s <+: s := by
  rw [← List.reverse_suffix]
  simp only [stripR, List.reverse_reverse]
  exact List.dropWhile_suffix _

lemma stripR_length_le (s : Str) : (stripR s).length ≤ s.length := by
  have h := dropWhile_length_le isPySpace s.reverse
  simpa [stripR] using h

lemma stripL_eq_self_of_strip (s : Str) (h : strip s = s) : stripL s = s := by
  have hl1 : (stripL s).length ≤ s.length := dropWhile_length_le _ _
  have hl2 : (strip s).length ≤ (stripL s).length := stripR_length_le _
  rw [h] at hl2
  exact (stripL_suffix s).eq_of_length (le_antisymm hl1 hl2)

lemma stripR_eq_self_of_strip (s : Str) (h : strip s = s) : stripR s = s := by
  have h1 := stripL_eq_self_of_strip s h
  calc stripR s = stripR (stripL s) := by rw [h1]
    _ = s := h

lemma stripR_idem (s : Str) : stripR (stripR s) = stripR s := by
  simp only [stripR, List.reverse_reverse, dropWhile_idem]

lemma stripL_stripR_of_fixed (s : Str) (h : stripL s = s) : stripL (stripR s) = stripR s := by
  cases hs : stripR s with
  | nil => simp [stripL]
  | cons a t =>
    obtain ⟨r, hr⟩ := stripR_front s
    rw [hs] at hr
    have hsplit : s = a :: (t ++ r) := by rw [← hr]; simp
    have hpa : isPySpace a = false := by
      apply dropWhile_cons_self isPySpace a (t ++ r)
      rw [hsplit] at h
      simpa [stripL] using h
    simp [stripL, List.dropWhile_cons, hpa]

lemma strip_idem (s : Str) : strip (strip s) = strip s := by
  have h1 : stripL (stripL s) = stripL s := dropWhile_idem _ _
  have h2 : stripL (stripR (stripL s)) = stripR (stripL s) := stripL_stripR_of_fixed _ h1
  show stripR (stripL (stripR (stripL s))) = stripR (stripL s)
  rw [h2, stripR_idem]

lemma infix_dropWhile (p : Char → Bool) (a : Char) (t c : Str)
    (hpa : p a = false) (h : a :: t <:+: c) : a :: t <:+: c.dropWhile p := by
  obtain ⟨pre, suf, rfl⟩ := h
  induction pre with
  | nil =>
    refine ⟨[], suf, ?_⟩
    simp [List.dropWhile_cons, hpa]
  | cons b pre ih =>
    by_cases hb : p b
    · simpa [List.dropWhile_cons, hb] using ih
    · exact ⟨b :: pre, suf, by simp [List.dropWhile_cons, hb]⟩

lemma infix_strip (s c : Str) (hne : s ≠ []) (hs : strip s = s) (h : s <:+: c) :
    s <:+: strip c := by
  obtain ⟨a, t, rfl⟩ := List.exists_cons_of_ne_nil hne
  have hpa : isPySpace a = false :=
    dropWhile_cons_self _ _ _ (stripL_eq_self_of_strip _ hs)
  have h1 : a :: t <:+: stripL c := infix_dropWhile _ _ _ _ hpa h
  have hrev : stripL (List.reverse (a :: t)) = List.reverse (a :: t) := by
    have h2 := congrArg List.reverse (stripR_eq_self_of_strip _ hs)
    simpa [stripR, stripL] using h2
  obtain ⟨b, u, hbu⟩ :=
    List.exists_cons_of_ne_nil (show List.reverse (a :: t) ≠ [] by simp)
  have hpb : isPySpace b = false := by
    rw [hbu] at hrev
    exact dropWhile_cons_self isPySpace b u (by simpa [stripL] using hrev)
  have h1' : List.reverse (a :: t) <:+: List.reverse (stripL c) := List.reverse_infix.mpr h1
  rw [hbu] at h1'
  have h2 : b :: u <:+: (List.reverse (stripL c)).dropWhile isPySpace :=
    infix_dropWhile _ _ _ _ hpb h1'
  rw [← hbu] at h2
  show a :: t <:+: stripR (stripL c)
  rw [← List.reverse_infix]
  simpa [stripR] using h2

/-! ### Helper lemmas about blank-line structure -/

/-- Whether the two-character sequence of one newline directly followed by
another occurs somewhere in the string: exactly the occurrence condition of
the separator of agent.py line 49. -/
def hasNLNL : Str → Bool
  | a :: b :: rest => (decide (a = '\n') && decide (b = '\n')) || hasNLNL (b :: rest)
  | _ => false

lemma hasNLNL_cons (a : Char) (l : Str) :
    hasNLNL (a :: l) = true ↔ (a = '\n' ∧ l.head? = some '\n') ∨ hasNLNL l = true := by
  cases l with
  | nil => simp [hasNLNL]
  | cons b rest => simp [hasNLNL]

lemma hasNLNL_append (xs ys : Str) :
    hasNLNL (xs ++ ys) = true ↔
      hasNLNL xs = true ∨ hasNLNL ys = true ∨
        (xs.getLast? = some '\n' ∧ ys.head? = some '\n') := by
  induction xs with
  | nil => simp [hasNLNL]
  | cons a xs ih =>
    rw [List.cons_append, hasNLNL_cons, ih, hasNLNL_cons]
    cases xs with
    | nil => simp; tauto
    | cons b xs' => simp [List.getLast?_cons_cons]; tauto

lemma hasNLNL_false_of_suffix (l' l : Str) (h : l' <:+ l) (hl : hasNLNL l = false) :
    hasNLNL l' = false := by
  obtain ⟨pre, rfl⟩ := h
  rw [Bool.eq_false_iff] at hl ⊢
  intro hc
  exact hl ((hasNLNL_append pre l').mpr (Or.inr (Or.inl hc)))

lemma hasNLNL_false_of_start (l' l : Str) (h : l' <+: l) (hl : hasNLNL l = false) :
    hasNLNL l' = false := by
  obtain ⟨suf, rfl⟩ := h
  rw [Bool.eq_false_iff] at hl ⊢
  intro hc
  exact hl ((hasNLNL_append l' suf).mpr (Or.inl hc))

lemma hasNLNL_false_strip (s : Str) (h : hasNLNL s = false) : hasNLNL (strip s) = false :=
  hasNLNL_false_of_start _ _ (stripR_front (stripL s))
    (hasNLNL_false_of_suffix _ _ (stripL_suffix s) h)

lemma joinNL_head (t : Str) (ts : List Str) (h : t ≠ []) :
    (joinNL (t :: ts)).head? = t.head? := by
  cases ts with
  | nil => rfl
  | cons t2 ts' =>
    show (t ++ '\n' :: joinNL (t2 :: ts')).head? = t.head?
    cases t with
    | nil => simp at h
    | cons a u => simp

lemma joinNL_no_blank (texts : List Str)
    (h : ∀ t ∈ texts,
      t ≠ [] ∧ t.head? ≠ some '\n' ∧ t.getLast? ≠ some '\n' ∧ hasNLNL t = false) :
    hasNLNL (joinNL texts) = false := by
  induction texts using joinNL.induct with
  | case1 => rfl
  | case2 t => exact (h t (by simp)).2.2.2
  | case3 t ts hne ih =>
    obtain ⟨t2, ts', rfl⟩ := List.exists_cons_of_ne_nil hne
    have ht := h t (by simp)
    have hJ : hasNLNL (joinNL (t2 :: ts')) = false := ih (fun x hx => h x (by simp [hx]))
    have hhead : (joinNL (t2 :: ts')).head? = t2.head? := joinNL_head _ _ (h t2 (by simp)).1
    rw [Bool.eq_false_iff]
    intro hc
    rw [show joinNL (t :: t2 :: ts') = t ++ '\n' :: joinNL (t2 :: ts') from rfl,
      hasNLNL_append] at hc
    rcases hc with h1 | h2 | ⟨h3, _⟩
    · exact absurd h1 (by simp [ht.2.2.2])
    · rw [hasNLNL_cons] at h2
      rcases h2 with ⟨_, hh⟩ | hJ'
      · rw [hhead] at hh
        exact (h t2 (by simp)).2.1 hh
      · simp [hJ] at hJ'
    · exact ht.2.2.1 h3

lemma findSep_nlnl_none (s : Str) (h : hasNLNL s = false) : findSep nlnl s = none := by
  induction s with
  | nil => rfl
  | cons c rest ih =>
    have hc : ¬(c = '\n' ∧ rest.head? = some '\n') := by
      intro hcc
      rw [Bool.eq_false_iff] at h
      exact h ((hasNLNL_cons c rest).mpr (Or.inl hcc))
    have hrest : hasNLNL rest = false := by
      rw [Bool.eq_false_iff] at h ⊢
      intro hr
      exact h ((hasNLNL_cons c rest).mpr (Or.inr hr))
    have hpre : nlnl.isPrefixOf (c :: rest) = false := by
      rw [Bool.eq_false_iff]
      intro hp
      rw [ List.isPrefixOf_iff_prefix] at hp
      rw [show nlnl = '\n' :: ['\n'] from rfl, List.cons_prefix_cons] at hp
      obtain ⟨hc1, hc2⟩ := hp
      obtain ⟨r, hr⟩ := hc2
      apply hc
      refine ⟨hc1.symm, ?_⟩
      rw [← hr]
      simp
    show findSep nlnl (c :: rest) = none
    simp [findSep, hpre, ih hrest]

lemma splitSeq_no_sep (s : Str) (h : findSep nlnl s = none) : splitSeq nlnl s = [s] := by
  simp [splitSeq, splitSeqAux, h]

lemma infix_joinNL (t : Str) (texts : List Str) (h : t ∈ texts) : t <:+: joinNL texts := by
  induction texts using joinNL.induct with
  | case1 => simp at h
  | case2 t' =>
    rw [List.mem_singleton] at h
    rw [h]
    exact List.infix_rfl
  | case3 t' ts hne ih =>
    obtain ⟨t2, ts', rfl⟩ := List.exists_cons_of_ne_nil hne
    rcases List.mem_cons.mp h with rfl | hmem
    · exact ⟨[], '\n' :: joinNL (t2 :: ts'), rfl⟩
    · obtain ⟨pre, suf, hps⟩ := ih hmem
      refine ⟨t' ++ '\n' :: pre, suf, ?_⟩
      rw [show joinNL (t' :: t2 :: ts') = t' ++ '\n' :: joinNL (t2 :: ts') from rfl, ← hps]
      simp

lemma handle_context_ne_exited (qa : QaPipe) (q : Str) (ctx : Option Str) :
    handle_context qa q ctx ≠ .exited := by
  cases ctx with
  | none => simp [handle_context]
  | some c =>
    by_cases hc : c = []
    · simp [handle_context, hc]
    · simp only [handle_context, if_pos (show c ≠ [] from hc)]
      cases answer_query qa q c <;> simp

/-! ### Claims -/

/-- C1 counterexample: with no index directory (state none), the retriever
raises the open_dir exception instead of returning the not-found signal. -/
theorem claim_C1_counterexample :
    search_content none "init".toList = .error openDirErrMsg ∧
    search_content none "init".toList ≠ .ok none := by
  exact ⟨rfl, by decide⟩

/-- C1 (amended): when the index directory does not exist, the retriever
raises (open_dir fails before any search is attempted); the not-found
signal is returned only when an index exists and the query has zero hits. -/
theorem claim_C1 (q : Str) (entries : List Str)
    (h : searchHits entries q = []) :
    search_content none q = .error openDirErrMsg ∧
    search_content (some entries) q = .ok none := by
  constructor
  · rfl
  · simp [search_content, h]

/-- C1 witness: concrete instance of the amended claim at the query init
and an index with no entries. -/
theorem claim_C1_witness :
    search_content none "init".toList = .error openDirErrMsg ∧
    search_content (some []) "init".toList = .ok none :=
  claim_C1 "init".toList [] (by decide)

/-- C4: fetching the page whose body is an h1 tag Setup and a p tag
Run init() first. yields exactly the scraped text with a literal newline
between the two texts; indexing that text stores it as a single chunk, and
the query init returns that chunk, whose content contains
Run init() first. as a substring. -/
theorem claim_C4 :
    scrape_documentation
        (.response 200
          [⟨"h1".toList, "Setup".toList⟩, ⟨"p".toList, "Run init() first.".toList⟩])
      = .ok "Setup\nRun init() first.".toList ∧
    index_content "Setup\nRun init() first.".toList none
      = some ["Setup\nRun init() first.".toList] ∧
    search_content (some ["Setup\nRun init() first.".toList]) "init".toList
      = .ok (some "Setup\nRun init() first.".toList) ∧
    "Run init() first.".toList <:+: "Setup\nRun init() first.".toList := by
  refine ⟨by decide, by decide, by decide, by decide⟩

/-- C5 counterexample: a final response with the non-2xx status 304 does
not raise (raise_for_status only raises for 4xx and 5xx), and the fetch
stage returns the page content. -/
theorem claim_C5_counterexample :
    ¬(200 ≤ 304 ∧ 304 < 300) ∧
    scrape_documentation (.response 304 [⟨"p".toList, "x".toList⟩]) = .ok ['x'] := by
  exact ⟨by decide, by decide⟩

/-- C5 (amended): for a network failure, and for any response whose status
is in the 4xx or 5xx range, the fetch stage raises a fetch error carrying
the underlying cause and never returns a content string; statuses outside
that range (including non-2xx ones such as 304) do not raise. -/
theorem claim_C5 (cause : Str) (status : Nat) (body : List Tag)
    (h : 400 ≤ status ∧ status < 600) :
    (scrape_documentation (.failure cause) = .error (fetchErrPrefix ++ cause) ∧
      cause <:+ fetchErrPrefix ++ cause) ∧
    (scrape_documentation (.response status body)
        = .error (fetchErrPrefix ++ httpErrCause status) ∧
      Nat.toDigits 10 status <:+ httpErrCause status) ∧
    ∀ s, scrape_documentation (.response status body) ≠ .ok s := by
  refine ⟨⟨rfl, ⟨fetchErrPrefix, rfl⟩⟩, ⟨?_, ⟨"HTTPError status ".toList, rfl⟩⟩, ?_⟩
  · simp [scrape_documentation, h]
  · intro s
    simp [scrape_documentation, h]

/-- C5 witness: concrete instance of the amended claim at status 404 and a
network failure whose cause is the text timeout. -/
theorem claim_C5_witness :
    (scrape_documentation (.failure "timeout".toList)
        = .error (fetchErrPrefix ++ "timeout".toList) ∧
      "timeout".toList <:+ fetchErrPrefix ++ "timeout".toList) ∧
    (scrape_documentation (.response 404 [])
        = .error (fetchErrPrefix ++ httpErrCause 404) ∧
      Nat.toDigits 10 404 <:+ httpErrCause 404) ∧
    ∀ s, scrape_documentation (.response 404 []) ≠ .ok s :=
  claim_C5 "timeout".toList 404 [] (by decide)

/-- C9: when retrieval returns a hit whose stored content is the empty
string, the truthiness test of main treats it like the no-hit case: the
missing-information message is reported, the outcome coincides with the
none case, and the QA pipeline is never invoked (the outcome does not
depend on it). -/
theorem claim_C9 (qa : QaPipe) (q : Str) :
    handle_context qa q (some []) = .noInfo handle_missing_info ∧
    handle_context qa q (some []) = handle_context qa q none ∧
    ∀ qa' : QaPipe, handle_context qa q (some []) = handle_context qa' q (some []) := by
  refine ⟨rfl, rfl, fun _ => rfl⟩

/-- C10: an input line ends the interactive loop exactly when it equals
exit after stripping surrounding whitespace and lowercasing; every other
input line is handled by the search branch. -/
theorem claim_C10 (st : IndexState) (qa : QaPipe) (input : Str) :
    loop_step st qa input = .exited ↔ lowerS (strip input) = "exit".toList := by
  unfold loop_step
  by_cases h : lowerS (strip input) = "exit".toList
  · simp [h]
  · rw [if_neg h]
    refine iff_of_false ?_ h
    cases search_content st (strip input) with
    | error m => simp
    | ok ctx => exact handle_context_ne_exited _ _ _

/-- C2 counterexample: the try block of main wraps the interactive loop, so
a QA failure while answering a query aborts the whole session with a fatal
message, even though an exit command is still pending in the input. -/
theorem claim_C2_counterexample :
    run_loop (some ["hello world".toList]) (fun _ _ => .error "model failure".toList)
        ["hello".toList, "exit".toList]
      = .fatal (ansErrPrefix ++ "model failure".toList) ∧
    run_loop (some ["hello world".toList]) (fun _ _ => .error "model failure".toList)
        ["hello".toList, "exit".toList] ≠ .exitCmd := by
  exact ⟨by decide, by decide⟩

/-- C2 (amended): the terminal state is reached on the exit command or on
any unhandled exception during setup or during query handling; since the
try block of main wraps the interactive loop, a failure while answering a
query (or retrieving) ends the session as fatal, and only the answered and
no-information outcomes continue the loop. -/
theorem claim_C2 (st : IndexState) (qa : QaPipe) (q : Str) (rest : List Str) :
    (loop_step st qa q = .exited → run_loop st qa (q :: rest) = .exitCmd) ∧
    (∀ m, loop_step st qa q = .fatal m → run_loop st qa (q :: rest) = .fatal m) ∧
    (∀ a, loop_step st qa q = .answered a →
      run_loop st qa (q :: rest) = run_loop st qa rest) ∧
    (∀ m, loop_step st qa q = .noInfo m →
      run_loop st qa (q :: rest) = run_loop st qa rest) ∧
    (∀ cause load queries,
      session (.failure cause) load queries = .fatal (fetchErrPrefix ++ cause)) := by
  refine ⟨?_, ?_, ?_, ?_, ?_⟩
  · intro h
    simp [run_loop, h]
  · intro m h
    simp [run_loop, h]
  · intro a h
    simp [run_loop, h]
  · intro m h
    simp [run_loop, h]
  · intro cause load queries
    rfl

/-- C2 witness: the four interactive outcomes at concrete inputs — an exit
command ends the session, a retrieval exception is fatal, and an answered
or a no-information query continues the loop. -/
theorem claim_C2_witness :
    run_loop (some []) (fun _ _ => .ok []) ["exit".toList] = .exitCmd ∧
    run_loop none (fun _ _ => .ok []) ["hello".toList] = .fatal openDirErrMsg ∧
    run_loop (some ["hello world".toList]) (fun _ _ => .ok "yes".toList)
        ["hello".toList]
      = run_loop (some ["hello world".toList]) (fun _ _ => .ok "yes".toList) [] ∧
    run_loop (some []) (fun _ _ => .ok []) ["hello".toList]
      = run_loop (some []) (fun _ _ => .ok []) [] :=
  ⟨(claim_C2 (some []) (fun _ _ => .ok []) "exit".toList []).1 (by decide),
   (claim_C2 none (fun _ _ => .ok []) "hello".toList []).2.1 openDirErrMsg (by decide),
   (claim_C2 (some ["hello world".toList]) (fun _ _ => .ok "yes".toList)
       "hello".toList []).2.2.1 "yes".toList (by decide),
   (claim_C2 (some []) (fun _ _ => .ok []) "hello".toList []).2.2.2.1
     handle_missing_info (by decide)⟩

/-- C6: indexing the same text twice appends its chunk list twice (each
chunk is stored twice, no deduplication), and a query whose terms match
exactly one chunk of the text still returns that stored chunk content. -/
theorem claim_C6 (c q target : Str)
    (hmem : target ∈ indexChunks c)
    (hmatch : matchesQuery q target = true)
    (huniq : ∀ e ∈ indexChunks c, matchesQuery q e = true → e = target) :
    index_content c (index_content c none) = some (indexChunks c ++ indexChunks c) ∧
    (∀ e : Str, (indexChunks c ++ indexChunks c).count e = 2 * (indexChunks c).count e) ∧
    search_content (index_content c (index_content c none)) q = .ok (some target) := by
  have hstate : index_content c (index_content c none)
      = some (indexChunks c ++ indexChunks c) := by
    simp [index_content]
  refine ⟨hstate, ?_, ?_⟩
  · intro e
    rw [List.count_append]
    omega
  · rw [hstate]
    have hall : ∀ x ∈ searchHits (indexChunks c ++ indexChunks c) q, x = target := by
      intro x hx
      rw [searchHits, List.mem_filter] at hx
      rcases List.mem_append.mp hx.1 with h | h
      · exact huniq x h hx.2
      · exact huniq x h hx.2
    have hne : searchHits (indexChunks c ++ indexChunks c) q ≠ [] := by
      intro h0
      have hmem2 : target ∈ searchHits (indexChunks c ++ indexChunks c) q := by
        rw [searchHits, List.mem_filter]
        exact ⟨List.mem_append.mpr (Or.inl hmem), hmatch⟩
      rw [h0] at hmem2
      simp at hmem2
    cases hh : searchHits (indexChunks c ++ indexChunks c) q with
    | nil => exact absurd hh hne
    | cons top tl =>
      have htop : top = target := hall top (by rw [hh]; simp)
      simp [search_content, hh, htop]

/-- C6 witness: concrete instance for a text of two chunks, the query gamma
matching only the second chunk. -/
theorem claim_C6_witness :
    search_content
        (index_content "alpha beta\n\ngamma delta".toList
          (index_content "alpha beta\n\ngamma delta".toList none))
        "gamma".toList
      = .ok (some "gamma delta".toList) :=
  (claim_C6 "alpha beta\n\ngamma delta".toList "gamma".toList "gamma delta".toList
    (by decide) (by decide) (by decide)).2.2

/-- C7: a query with zero index hits is a recognized no-information
outcome: the loop iteration reports the missing-information message, its
outcome does not depend on the QA pipeline (the model is not invoked), and
the interactive loop continues with the remaining inputs. -/
theorem claim_C7 (entries : List Str) (qa qa' : QaPipe) (input : Str) (rest : List Str)
    (hne : lowerS (strip input) ≠ "exit".toList)
    (hzero : searchHits entries (strip input) = []) :
    loop_step (some entries) qa input = .noInfo handle_missing_info ∧
    loop_step (some entries) qa input = loop_step (some entries) qa' input ∧
    run_loop (some entries) qa (input :: rest) = run_loop (some entries) qa rest := by
  have hstep : ∀ p : QaPipe, loop_step (some entries) p input = .noInfo handle_missing_info := by
    intro p
    unfold loop_step
    rw [if_neg hne]
    simp [search_content, hzero, handle_context]
  refine ⟨hstep qa, (hstep qa).trans (hstep qa').symm, ?_⟩
  simp [run_loop, hstep qa]

/-- C7 witness: the query xyzzy against an index holding only the scenario
chunk has zero hits and yields the no-information outcome. -/
theorem claim_C7_witness :
    loop_step (some ["Setup\nRun init() first.".toList]) (fun _ _ => .ok [])
        "xyzzy".toList
      = .noInfo handle_missing_info :=
  (claim_C7 ["Setup\nRun init() first.".toList] (fun _ _ => .ok []) (fun _ _ => .ok [])
    "xyzzy".toList [] (by decide) (by decide)).1

/-- C3 counterexample: a page whose only tag is an h4 heading scrapes to
the empty string (only p, h1, h2, h3 are extracted), and a p tag with
surrounding whitespace in its text yields a scrape that does not contain
that text verbatim. -/
theorem claim_C3_counterexample :
    scrape_documentation (.response 200 [⟨"h4".toList, "Hi".toList⟩]) = .ok [] ∧
    scrape_documentation (.response 200 [⟨"p".toList, "  x  ".toList⟩]) = .ok ['x'] ∧
    ¬("  x  ".toList <:+: ['x']) := by
  refine ⟨by decide, by decide, by decide⟩

/-- C3 (amended): for any successful fetch (status outside the raising
4xx-5xx range) whose parsed body contains a tag of type p, h1, h2 or h3
(higher heading levels are not extracted) with a non-empty text carrying
no surrounding whitespace, the fetch stage returns a non-empty string that
contains that tag text. -/
theorem claim_C3 (status : Nat) (body : List Tag) (tag : Tag)
    (hstatus : ¬(400 ≤ status ∧ status < 600))
    (hmem : tag ∈ body)
    (hkeep : keepTag tag = true)
    (hne : tag.text ≠ [])
    (hstripped : strip tag.text = tag.text) :
    ∃ content : Str, scrape_documentation (.response status body) = .ok content ∧
      content ≠ [] ∧ tag.text <:+: content := by
  have hj : tag.text <:+: joinNL ((body.filter keepTag).map Tag.text) :=
    infix_joinNL _ _ (List.mem_map_of_mem _ (List.mem_filter.mpr ⟨hmem, hkeep⟩))
  have hinf : tag.text <:+: strip (joinNL ((body.filter keepTag).map Tag.text)) :=
    infix_strip _ _ hne hstripped hj
  refine ⟨strip (joinNL ((body.filter keepTag).map Tag.text)), ?_, ?_, hinf⟩
  · simp [scrape_documentation, hstatus]
  · intro h0
    rw [h0] at hinf
    rw [List.infix_nil] at hinf
    exact hne hinf

/-- C3 witness: concrete instance at status 200 with a single p tag whose
text is Hello. -/
theorem claim_C3_witness :
    ∃ content : Str,
      scrape_documentation (.response 200 [⟨"p".toList, "Hello".toList⟩]) = .ok content ∧
      content ≠ [] ∧ "Hello".toList <:+: content :=
  claim_C3 200 [⟨"p".toList, "Hello".toList⟩] ⟨"p".toList, "Hello".toList⟩
    (by decide) (by decide) (by decide) (by decide) (by decide)

/-- C8 counterexample: two p tags whose individual texts contain no blank
line, where the first text ends with a newline: the single-newline join
creates a blank line, and the blank-line split yields two chunks. -/
theorem claim_C8_counterexample :
    hasNLNL "a\n".toList = false ∧ hasNLNL "b".toList = false ∧
    scrape_documentation
        (.response 200 [⟨"p".toList, "a\n".toList⟩, ⟨"p".toList, "b".toList⟩])
      = .ok "a\n\nb".toList ∧
    (splitSeq nlnl "a\n\nb".toList).length = 2 := by
  refine ⟨by decide, by decide, by decide, by decide⟩

/-- C8 (amended): if every extracted tag text is non-empty, contains no
blank line, and neither starts nor ends with a newline (so that the
single-newline join cannot create a blank line at a boundary), the
blank-line split of the scraped document produces exactly one chunk and
the whole document is stored as a single index entry. -/
theorem claim_C8 (body : List Tag)
    (h : ∀ t ∈ (body.filter keepTag).map Tag.text,
      t ≠ [] ∧ t.head? ≠ some '\n' ∧ t.getLast? ≠ some '\n' ∧ hasNLNL t = false) :
    ∃ content : Str,
      scrape_documentation (.response 200 body) = .ok content ∧
      splitSeq nlnl content = [content] ∧
      index_content content none = some [content] := by
  have hJ : hasNLNL (joinNL ((body.filter keepTag).map Tag.text)) = false :=
    joinNL_no_blank _ h
  have hC : hasNLNL (strip (joinNL ((body.filter keepTag).map Tag.text))) = false :=
    hasNLNL_false_strip _ hJ
  have hsplit : splitSeq nlnl (strip (joinNL ((body.filter keepTag).map Tag.text)))
      = [strip (joinNL ((body.filter keepTag).map Tag.text))] :=
    splitSeq_no_sep _ (findSep_nlnl_none _ hC)
  refine ⟨strip (joinNL ((body.filter keepTag).map Tag.text)), ?_, hsplit, ?_⟩
  · simp [scrape_documentation]
  · simp [index_content, indexChunks, hsplit, strip_idem]

/-- C8 witness: concrete instance for a page of one p tag and one h1 tag
with plain one-line texts. -/
theorem claim_C8_witness :
    ∃ content : Str,
      scrape_documentation
          (.response 200 [⟨"p".toList, "Hello world".toList⟩, ⟨"h1".toList, "More".toList⟩])
        = .ok content ∧
      splitSeq nlnl content = [content] ∧
      index_content content none = some [content] :=
  claim_C8 [⟨"p".toList, "Hello world".toList⟩, ⟨"h1".toList, "More".toList⟩] (by decide)
